import Mathlib

/-!
Shallow embedding of the project/target disambiguation and override-merging
engine of `packages/angular/cli/models/architect-command.ts`, together with
theorems that settle the specification claims about it.

Conventions used throughout:
* JavaScript strings that may be `undefined` are modelled as `String`, with
  `""` playing the role of every falsy value (both `undefined` and `""` are
  falsy, and the source only ever branches on truthiness of these values).
* A JavaScript `Set` is modelled as a duplicate-free `List` that keeps the
  insertion order of first occurrences (`jsSetOfList` / `jsSetAdd`).
* Thrown exceptions are modelled with `Except`; the distinguishable
  `e.code === 'MODULE_NOT_FOUND'` condition is the `code` field of `JsError`.
* The external `parseArguments` collaborator (models/parser.ts, outside the
  sources at hand) is kept abstract: the engine is parametric in a function
  `parse : List String → α → ParsedArguments` where `α` is the type of the
  option definitions produced by the (equally external)
  `parseJsonSchemaToOptions`.
-/

/-- A structured option value, as produced by the external override parser.
Mirrors the JSON values stored in the `Arguments` record of the source. -/
inductive OptValue where
  | str (s : String)
  | bool (b : Bool)
  | num (n : Int)
  | strList (l : List String)
deriving DecidableEq

/-- The result of parsing a token list against an option schema
(`Arguments` in the source): an ordered record of structured options (the
order mirrors JSON object key insertion order, which is what
`JSON.stringify` comparison in the source observes) plus the ordered
leftover tokens stored under the `'--'` key. An absent `'--'` key is
modelled as the empty list. -/
structure ParsedArguments where
  options : List (String × OptValue)
  leftovers : List String
deriving DecidableEq

/-- The `Target` triple of `@angular-devkit/architect` as used by the
source: `{project, target, configuration}`. -/
structure Target where
  project : String
  target : String
  configuration : String
deriving DecidableEq

/-- A thrown JavaScript error, observed through its `code` property
(`e.code === 'MODULE_NOT_FOUND'`) and its message. -/
structure JsError where
  code : String
  message : String
deriving DecidableEq

/-- What the engine observes of a resolved builder: the option definitions
derived by `parseJsonSchemaToOptions` from `builderDesc.optionSchema`
(abstract type `α`), and whether the schema allows additional properties
(`builderDesc.optionSchema.additionalProperties`). -/
structure BuilderDesc (α : Type) where
  optionDefs : α
  allowsAdditionalProperties : Bool
deriving DecidableEq

/-- A workspace project, seen by this engine only through the keys of its
`targets` map (`project.targets.has(...)`). -/
structure Project where
  targets : List String
deriving DecidableEq

/-- The workspace: the ordered project map plus the
`extensions['defaultProject']` entry (`""` when absent). -/
structure Workspace where
  projects : List (String × Project)
  defaultProject : String
deriving DecidableEq

/-- The command options the engine reads: the discrete `project`,
`configuration` and `target` options (`""` when absent), the `help` flag,
and the trailing override tokens `options['--']`. -/
structure CmdOptions where
  project : String
  configuration : String
  targetOpt : String
  help : Bool
  leftovers : List String
deriving DecidableEq

/-- JavaScript `String.prototype.split(sep)` on a single-character
separator, written over the character list so that it evaluates inside the
kernel. `"".split(sep)` is `[""]`, like in JavaScript. -/
def splitOnCharAux : List Char → Char → List Char → List String
  | [], _, acc => [String.mk acc.reverse]
  | c :: cs, sep, acc =>
    if c = sep then String.mk acc.reverse :: splitOnCharAux cs sep []
    else splitOnCharAux cs sep (c :: acc)

/-- `s.split(sep)` for a one-character separator. -/
def splitOnChar (s : String) (sep : Char) : List String :=
  splitOnCharAux s.data sep []

/-- `Array.prototype.indexOf(x, fromIdx)` helper: first index `≥ i` whose
element equals `x`. -/
def jsIndexOfAux : List String → String → Nat → Option Nat
  | [], _, _ => none
  | y :: ys, x, i => if y = x then some i else jsIndexOfAux ys x (i + 1)

/-- JavaScript `l.indexOf(x, fromIdx)` (with `none` standing for `-1`). -/
def jsIndexOf (l : List String) (x : String) (fromIdx : Nat) : Option Nat :=
  jsIndexOfAux (l.drop fromIdx) x fromIdx

/-- `new Set(array)` as a duplicate-free list keeping first occurrences in
insertion order. -/
def jsSetOfList (l : List String) : List String :=
  l.foldl (fun acc x => if x ∈ acc then acc else acc ++ [x]) []

/-- `set.add(x)` on the same representation. -/
def jsSetAdd (l : List String) (x : String) : List String :=
  if x ∈ l then l else l ++ [x]

/-- `ArchitectCommand._makeTargetSpecifier` (architect-command.ts:413-444).
If the `target` option is truthy it is split on `:` into
`(project, target, configuration)` (missing segments are `undefined`,
normalised to `""` at the end), with a truthy discrete `configuration`
option overriding the parsed segment.  Otherwise project comes from the
discrete `project` option and target from the command's fixed target name;
the template prefix `configuration ? configuration + ',' : ''` in the
source collapses because `configuration` is still `undefined` at that
point, so the configuration is just the discrete option. -/
def makeTargetSpecifier (thisTarget : String) (o : CmdOptions) : Target :=
  if o.targetOpt ≠ "" then
    let parts := splitOnChar o.targetOpt ':'
    { project := parts.getD 0 ""
      target := parts.getD 1 ""
      configuration := if o.configuration ≠ "" then o.configuration else parts.getD 2 "" }
  else
    { project := o.project, target := thisTarget, configuration := o.configuration }

/-- The projects that declare the given target, in workspace order
(architect-command.ts:100-105 and 384-391). -/
def projectsSupporting (ws : Workspace) (targetName : String) : List String :=
  (ws.projects.filter (fun np => decide (targetName ∈ np.2.targets))).map Prod.fst

/-- The abort modes of the per-candidate resolution loop
(architect-command.ts:119-153): either the fatal missing-builder exit
(`return 1` after the diagnostic) or rethrowing an unrecognized error. -/
inductive DisambAbort where
  | fatalAbort (msgs : List String)
  | thrownAbort (e : JsError)
deriving DecidableEq

/-- The fatal message of architect-command.ts:135 (and 226, 296). The
accompanying `warnOnMissingNodeModules` warning only inspects the file
system to tailor a non-fatal warning and is elided here. -/
def missingBuilderMsg (builderName : String) : String :=
  "Could not find the '" ++ builderName ++ "' builder's node package."

/-- The state threaded through the candidate loop: the `builderNames` set
(only filled for multi-target commands), the `leftoverMap` from project
name to its option definitions and parsed options, and the progressively
narrowed `potentialProjectNames` set. -/
structure LoopState (α : Type) where
  builderNames : List String
  leftoverMap : List (String × α × ParsedArguments)
  potential : List String

/-- One narrowing step (architect-command.ts:150-152):
`potential = new Set(builderLeftovers.filter((x) => potential.has(x)))`. -/
def narrowStep (potential : List String) (builderLeftovers : List String) : List String :=
  jsSetOfList (builderLeftovers.filter (fun x => decide (x ∈ potential)))

/-- The per-candidate loop of architect-command.ts:119-153. For each
candidate project in order: look up its builder name, add it to the
builder-name set when multi-target, resolve the builder (a
`MODULE_NOT_FOUND` failure is a fatal abort, any other failure is
rethrown), parse the command leftovers against the builder's option
definitions, record the result in the leftover map, and narrow the
potential-project set with the tokens left over by that parse. -/
def candidateLoop {α : Type} (multiTarget : Bool) (targetName : String)
    (getBuilderName : String → String → String)
    (resolveBuilder : String → Except JsError (BuilderDesc α))
    (parse : List String → α → ParsedArguments)
    (commandLeftovers : List String) :
    List String → LoopState α → Except DisambAbort (LoopState α)
  | [], st => .ok st
  | name :: rest, st =>
    let builderName := getBuilderName name targetName
    let builderNames := if multiTarget then jsSetAdd st.builderNames builderName else st.builderNames
    match resolveBuilder builderName with
    | .error e =>
      if e.code = "MODULE_NOT_FOUND" then .error (.fatalAbort [missingBuilderMsg builderName])
      else .error (.thrownAbort e)
    | .ok builderDesc =>
      let parsedOptions := parse commandLeftovers builderDesc.optionDefs
      candidateLoop multiTarget targetName getBuilderName resolveBuilder parse commandLeftovers rest
        { builderNames := builderNames
          leftoverMap := st.leftoverMap ++ [(name, builderDesc.optionDefs, parsedOptions)]
          potential := narrowStep st.potential parsedOptions.leftovers }

/-- The occurrence-location scan of architect-command.ts:161-169:
`let i = 0; while (i < leftovers.length) { i = leftovers.indexOf(p, i + 1);
if (i === -1) break; locations.push(i); }`. Note that the first search
starts at index `i + 1 = 1`. The fuel argument bounds the iteration count;
`leftovers.length` is enough because the found indices strictly
increase. -/
def collectLocationsAux (l : List String) (x : String) : Nat → Nat → List Nat
  | _, 0 => []
  | i, fuel + 1 =>
    if i < l.length then
      match jsIndexOf l x (i + 1) with
      | none => []
      | some j => j :: collectLocationsAux l x j fuel
    else []

/-- The `locations` list computed at architect-command.ts:161-169. -/
def collectLocations (l : List String) (x : String) : List Nat :=
  collectLocationsAux l x 0 l.length

/-- The token-removal stability check of architect-command.ts:170-180:
for each collected location in order, remove that single occurrence,
reparse, and strip the `'--'` leftovers from both parses
(`delete ... ['--']`); the first location whose removal leaves the
structured options unchanged (the `JSON.stringify` comparison) replaces
the override list; if none qualifies the list is unchanged. -/
def removeProjectToken {α : Type} (parse : List String → α → ParsedArguments)
    (optionDefs : α) (storedOptions : List (String × OptValue))
    (commandLeftovers : List String) (projectName : String) : List String :=
  let locations := collectLocations commandLeftovers projectName
  match locations.find? (fun loc =>
      decide ((parse (commandLeftovers.eraseIdx loc) optionDefs).options = storedOptions)) with
  | some loc => commandLeftovers.eraseIdx loc
  | none => commandLeftovers

/-- The outcome of the disambiguation block (architect-command.ts:115-193):
fatal exit, rethrown error, or continuation with the (possibly still
empty) project name and the (possibly shortened) override token list. -/
inductive DisambResult where
  | fatal (msgs : List String)
  | thrown (e : JsError)
  | done (projectName : String) (newLeftovers : List String)
deriving DecidableEq

/-- The fatal conflict message of architect-command.ts:184-192. The
source renders it through `tags.oneLine`; the exact whitespace
normalisation is immaterial to every claim and is reproduced here as a
plain concatenation (projects joined with `,` as by `Array.join()`). -/
def differentBuildersMsg (targetName : String) (targetProjectNames builderNames : List String) : String :=
  "Architect commands with command line overrides cannot target different builders. The '"
    ++ targetName ++ "' target would run on projects " ++ String.intercalate "," targetProjectNames
    ++ " which have the following builders: " ++ String.intercalate " " builderNames

/-- The disambiguation block of architect-command.ts:115-193, entered when
no project was supplied and trailing override tokens exist: run the
candidate loop; if the narrowed set has exactly one member it is the
resolved project and the selector token is (tentatively) stripped from the
override list; otherwise the project stays unresolved, and a multi-target
command whose candidates span more than one distinct builder is a fatal
conflict. -/
def disambiguateProject {α : Type} (multiTarget : Bool) (targetProjectNames : List String)
    (targetName : String)
    (getBuilderName : String → String → String)
    (resolveBuilder : String → Except JsError (BuilderDesc α))
    (parse : List String → α → ParsedArguments)
    (commandLeftovers : List String) : DisambResult :=
  match candidateLoop multiTarget targetName getBuilderName resolveBuilder parse commandLeftovers
      targetProjectNames
      { builderNames := [], leftoverMap := [], potential := jsSetOfList targetProjectNames } with
  | .error (.fatalAbort msgs) => .fatal msgs
  | .error (.thrownAbort e) => .thrown e
  | .ok st =>
    let pr :=
      if st.potential.length = 1 then
        let projectName := st.potential.headD ""
        match st.leftoverMap.lookup projectName with
        | some (optionDefs, parsedOptions) =>
          (projectName,
            removeProjectToken parse optionDefs parsedOptions.options commandLeftovers projectName)
        | none => (projectName, commandLeftovers)
      else ("", commandLeftovers)
    if pr.1 = "" ∧ multiTarget = true ∧ 1 < st.builderNames.length then
      .fatal [differentBuildersMsg targetName targetProjectNames st.builderNames]
    else .done pr.1 pr.2

/-- C3 counterexample input: a non-empty, colon-free `target` option. -/
def c3Opts : CmdOptions :=
  { project := "p", configuration := "c", targetOpt := "build", help := false, leftovers := [] }

/-- C3 witness input. -/
def c3WitOpts : CmdOptions :=
  { project := "app", configuration := "prod", targetOpt := "", help := false, leftovers := [] }


/-- Modelled from the spec: the external OverrideParser (`parseArguments`
of models/parser.ts, which is not among the sources at hand). Per the
contract of spec sections 4.4/4.5 it parses a token list against option
definitions into structured options plus leftovers and never fails:
unknown tokens become leftovers. This concrete instance takes the option
definitions to be a list of declared boolean long-flag names, binds
`--name=true` / `--name=false` for declared names, and leaves every other
token as a leftover, preserving order. -/
def specParse (tokens : List String) (boolFlags : List String) : ParsedArguments :=
  tokens.foldl (fun acc tok =>
    match tok.data with
    | '-' :: '-' :: body =>
      let parts := splitOnCharAux body '=' []
      let name := parts.getD 0 ""
      let value := parts.getD 1 ""
      if name ∈ boolFlags ∧ (value = "true" ∨ value = "false") then
        { acc with options := acc.options ++ [(name, OptValue.bool (value == "true"))] }
      else { acc with leftovers := acc.leftovers ++ [tok] }
    | _ => { acc with leftovers := acc.leftovers ++ [tok] }) ⟨[], []⟩

/-- The overall outcome of `ArchitectCommand.initialize`
(architect-command.ts:59-246): a fatal exit with code 1 and its fatal
messages, a plain early return, a successful completion carrying the
resolved project and the final `options['--']` list, or a rethrown
error. The `description.options` bookkeeping of lines 233-245 has no
bearing on any claim and is not part of the observable result. -/
inductive InitResult where
  | exit1 (msgs : List String)
  | earlyOk
  | ok (finalProject : String) (finalLeftovers : List String)
  | thrown (e : JsError)
deriving DecidableEq

/-- An early exit taken before the disambiguation guard
(architect-command.ts:64-113). -/
inductive PreludeExit where
  | exit1 (msgs : List String)
  | earlyOk
deriving DecidableEq

/-- Inject a prelude exit into the overall result. -/
def PreludeExit.toResult : PreludeExit → InitResult
  | .exit1 m => .exit1 m
  | .earlyOk => .earlyOk

/-- `ArchitectCommand.onMissingTarget` (architect-command.ts:42-56): a
configured `missingTargetError` takes precedence; otherwise the message
depends on whether a project name was supplied. Always exits with 1. -/
def onMissingTargetRes (missingTargetError targetName : String) : Option String → PreludeExit
  | some p =>
    if missingTargetError ≠ "" then .exit1 [missingTargetError]
    else .exit1 ["Project '" ++ p ++ "' does not support the '" ++ targetName ++ "' target."]
  | none =>
    if missingTargetError ≠ "" then .exit1 [missingTargetError]
    else .exit1 ["No projects support the '" ++ targetName ++ "' target."]

/-- The part of `ArchitectCommand.initialize` before the disambiguation
guard (architect-command.ts:64-113): require a workspace; handle the
no-fixed-target commands (help returns, otherwise the specifier must name
project and target); validate an explicitly supplied project; compute the
candidate projects and fail when the explicit project does not support the
target or when no project does. On success it yields the workspace and
the candidate list. -/
def initPrelude (targetName missingTargetError : String) (workspace : Option Workspace)
    (opts : CmdOptions) : Except PreludeExit (Workspace × List String) :=
  match workspace with
  | none => .error (.exit1 ["A workspace is required for this command."])
  | some ws =>
    if targetName = "" then
      if opts.help then .error .earlyOk
      else
        let specifier := makeTargetSpecifier targetName opts
        if specifier.project = "" ∨ specifier.target = "" then
          .error (.exit1 ["Cannot determine project or target for command."])
        else .error .earlyOk
    else if opts.project ≠ "" ∧ opts.project ∉ ws.projects.map Prod.fst then
      .error (.exit1 ["Project '" ++ opts.project ++ "' does not exist."])
    else
      let targetProjectNames := projectsSupporting ws targetName
      if opts.project ≠ "" ∧ opts.project ∉ targetProjectNames then
        .error (onMissingTargetRes missingTargetError targetName (some opts.project))
      else if targetProjectNames = [] then
        .error (onMissingTargetRes missingTargetError targetName none)
      else .ok (ws, targetProjectNames)

/-- The outcome of the post-disambiguation fallback
(architect-command.ts:195-211). -/
inductive FallbackResult where
  | chosen (p : String)
  | earlyOk
  | fatal (msgs : List String)
deriving DecidableEq

/-- The fallback project selection of architect-command.ts:195-211, in the
source's branch order: a sole candidate first, then the workspace default
project when it is among the candidates, then the help early-return, then
the fatal exit. -/
def resolveFallbackProject (missingTargetError defaultProjectName : String) (help : Bool)
    (cands : List String) : FallbackResult :=
  if cands.length = 1 then .chosen (cands.headD "")
  else if defaultProjectName ≠ "" ∧ defaultProjectName ∈ cands then .chosen defaultProjectName
  else if help then .earlyOk
  else .fatal [if missingTargetError ≠ "" then missingTargetError
               else "Cannot determine project or target for command."]

/-- Following the words of claim C8 (spec section 4.6), for comparison with
`resolveFallbackProject`: prefer the workspace default project if it is
among the candidates; else, if exactly one candidate exists, use it; else,
a help request returns without error; else fail fatally. -/
def specFallbackProject (missingTargetError defaultProjectName : String) (help : Bool)
    (cands : List String) : FallbackResult :=
  if defaultProjectName ≠ "" ∧ defaultProjectName ∈ cands then .chosen defaultProjectName
  else if cands.length = 1 then .chosen (cands.headD "")
  else if help then .earlyOk
  else .fatal [if missingTargetError ≠ "" then missingTargetError
               else "Cannot determine project or target for command."]

/-- The type of the disambiguation block seen as a function. The real
block is `disambiguateProject`; stating results of
`architectCommandInitWith` for an arbitrary inhabitant of this type
expresses that the block was never entered (claim C10). -/
def DisambFn (α : Type) : Type :=
  Bool → List String → String → (String → String → String) →
    (String → Except JsError (BuilderDesc α)) → (List String → α → ParsedArguments) →
    List String → DisambResult

/-- The tail of `ArchitectCommand.initialize`
(architect-command.ts:195-246): run the fallback selection when the
project is still unresolved and the command is not multi-target, then
resolve the builder of the chosen project (or of the first candidate when
still unresolved on a multi-target command), with the same
`MODULE_NOT_FOUND` handling as in the loop. On success the command
completes with the resolved project and the final override list. -/
def finishInit {α : Type} (multiTarget help : Bool) (missingTargetError defaultProjectName : String)
    (getBuilderName : String → String → String)
    (resolveBuilder : String → Except JsError (BuilderDesc α))
    (targetName : String) (targetProjectNames : List String)
    (projectName : String) (finalLeftovers : List String) : InitResult :=
  match (if projectName = "" ∧ multiTarget = false then
          resolveFallbackProject missingTargetError defaultProjectName help targetProjectNames
        else FallbackResult.chosen projectName) with
  | .earlyOk => .earlyOk
  | .fatal msgs => .exit1 msgs
  | .chosen pn =>
    let builderConf := getBuilderName (if pn ≠ "" then pn else targetProjectNames.headD "") targetName
    match resolveBuilder builderConf with
    | .error e =>
      if e.code = "MODULE_NOT_FOUND" then .exit1 [missingBuilderMsg builderConf]
      else .thrown e
    | .ok _ => .ok pn finalLeftovers

/-- The continuation after the disambiguation guard: a fatal block result
exits with 1, a rethrown error propagates, and a continuation feeds the
(possibly still empty) project name and the final override list into the
tail of `initialize`. -/
def postDisamb {α : Type} (multiTarget help : Bool) (missingTargetError defaultProjectName : String)
    (getBuilderName : String → String → String)
    (resolveBuilder : String → Except JsError (BuilderDesc α))
    (targetName : String) (targetProjectNames : List String) : DisambResult → InitResult
  | .fatal msgs => .exit1 msgs
  | .thrown e => .thrown e
  | .done projectName newLeftovers =>
    finishInit multiTarget help missingTargetError defaultProjectName getBuilderName
      resolveBuilder targetName targetProjectNames projectName newLeftovers

/-- `ArchitectCommand.initialize` (architect-command.ts:59-246) with the
disambiguation block abstracted as a parameter: prelude checks, then the
guard of line 115 (`!projectName && commandLeftovers.length > 0`) deciding
whether the disambiguation block runs at all, then the fallback selection
and the final builder resolution. -/
def architectCommandInitWith {α : Type} (disamb : DisambFn α)
    (targetName missingTargetError : String) (multiTarget : Bool)
    (workspace : Option Workspace)
    (getBuilderName : String → String → String)
    (resolveBuilder : String → Except JsError (BuilderDesc α))
    (parse : List String → α → ParsedArguments)
    (opts : CmdOptions) : InitResult :=
  match initPrelude targetName missingTargetError workspace opts with
  | .error pe => pe.toResult
  | .ok (ws, targetProjectNames) =>
    postDisamb multiTarget opts.help missingTargetError ws.defaultProject getBuilderName
      resolveBuilder targetName targetProjectNames
      (if opts.project = "" ∧ opts.leftovers ≠ [] then
        disamb multiTarget targetProjectNames targetName getBuilderName resolveBuilder parse
          opts.leftovers
      else DisambResult.done opts.project opts.leftovers)

/-- `ArchitectCommand.initialize` proper: the wrapper instantiated with
the real disambiguation block. -/
def architectCommandInit {α : Type}
    (targetName missingTargetError : String) (multiTarget : Bool)
    (workspace : Option Workspace)
    (getBuilderName : String → String → String)
    (resolveBuilder : String → Except JsError (BuilderDesc α))
    (parse : List String → α → ParsedArguments)
    (opts : CmdOptions) : InitResult :=
  architectCommandInitWith disambiguateProject
    targetName missingTargetError multiTarget workspace getBuilderName resolveBuilder parse opts

/-- Whether an `InitResult` carries the given final override list (results
that never reach execution hold trivially). -/
def leftoversUnchangedB : InitResult → List String → Bool
  | .ok _ l, l₀ => l == l₀
  | _, _ => true

/-- `Except.isOk` written out. -/
def exceptIsOk {ε β : Type} : Except ε β → Bool
  | .ok _ => true
  | .error _ => false

/-- The narrowing phase in isolation: fold the per-candidate leftover
token lists over `narrowStep` starting from the initial candidate set, as
the candidate loop does at architect-command.ts:150-152. -/
def narrowCandidates (init : List String) (leftoverLists : List (List String)) : List String :=
  leftoverLists.foldl narrowStep init

/-- The sequential multi-target loop of architect-command.ts:346-354:
`let result = 0; for (const project of projects) { result |= await
runSingleTarget({...targetSpec, project}, extra); } return result;`.
The abstract runner takes and returns a state of type `σ`, standing for
the awaited effects of a single run; the sequential threading of that
state models that no run starts before the previous one finished. -/
def runMultiTargetsSt {σ : Type} (runSingle : Target → List String → σ → σ × Nat)
    (targetSpec : Target) (extra : List String) :
    List String → σ × Nat → σ × Nat
  | [], acc => acc
  | p :: ps, acc =>
    let r := runSingle { targetSpec with project := p } extra acc.1
    runMultiTargetsSt runSingle targetSpec extra ps (r.1, acc.2 ||| r.2)

/-- Reference decomposition of the loop: the state after running every
candidate in order (note it does not depend on any exit code: no run is
skipped on failure). -/
def runStatesAux {σ : Type} (runSingle : Target → List String → σ → σ × Nat)
    (targetSpec : Target) (extra : List String) : List String → σ → σ
  | [], s => s
  | p :: ps, s =>
    runStatesAux runSingle targetSpec extra ps (runSingle { targetSpec with project := p } extra s).1

/-- Reference decomposition of the loop: the exit codes of the runs, in
candidate order. -/
def runCodesAux {σ : Type} (runSingle : Target → List String → σ → σ × Nat)
    (targetSpec : Target) (extra : List String) : List String → σ → List Nat
  | [], _ => []
  | p :: ps, s =>
    (runSingle { targetSpec with project := p } extra s).2 ::
      runCodesAux runSingle targetSpec extra ps (runSingle { targetSpec with project := p } extra s).1

/-- `ArchitectCommand.getProjectNamesByTarget` (architect-command.ts:384-411):
multi-target commands list every project declaring the target; single-target
commands try the default project first, then a sole candidate, then throw. -/
def getProjectNamesByTarget (ws : Workspace) (multiTarget : Bool) (targetName : String) :
    Except String (List String) :=
  let allProjectsForTargetName := projectsSupporting ws targetName
  if multiTarget then .ok allProjectsForTargetName
  else if ws.defaultProject ≠ "" ∧ ws.defaultProject ∈ allProjectsForTargetName then
    .ok [ws.defaultProject]
  else if allProjectsForTargetName.length = 1 then .ok allProjectsForTargetName
  else .error ("Could not determine a single project for the '" ++ targetName ++ "' target.")

/-- The dispatch of `ArchitectCommand.runArchitectTarget`
(architect-command.ts:339-357) over an abstract single-target runner:
when the specifier names no project and the command has a fixed target,
run the target over every project from `getProjectNamesByTarget`
sequentially, OR-ing the exit codes; otherwise run the single specifier.
The `Except` error is the `Error` thrown by `getProjectNamesByTarget`
(it is not a `SchemaValidationException`, so the catch clause of lines
358-381 rethrows it unchanged). -/
def runArchitectTarget {σ : Type} (runSingle : Target → List String → σ → σ × Nat)
    (ws : Workspace) (multiTarget : Bool) (targetName : String) (opts : CmdOptions)
    (s : σ) : Except String (σ × Nat) :=
  let extra := opts.leftovers
  let targetSpec := makeTargetSpecifier targetName opts
  if targetSpec.project = "" ∧ targetName ≠ "" then
    match getProjectNamesByTarget ws multiTarget targetName with
    | .error msg => .error msg
    | .ok projects => .ok (runMultiTargetsSt runSingle targetSpec extra projects (s, 0))
  else .ok (runSingle targetSpec extra s)

/-- The `{success, error}` value awaited from the scheduled builder run. -/
structure ExecutionResult where
  success : Bool
  error : Option String
deriving DecidableEq

/-- The outcome of `ArchitectCommand.runSingleTarget`: a numeric exit code
together with the fatal messages logged on the way, or a rethrown
error. -/
inductive RunResult where
  | finished (code : Nat) (fatalMsgs : List String)
  | thrown (e : JsError)
deriving DecidableEq

/-- The message of architect-command.ts:313:
`Unknown option: '${additional.split(/=/)[0]}'` — the token's own text up
to the first `=`, reported verbatim (no dashes are added or removed). -/
def tokenUnknownOptionMsg (tok : String) : String :=
  "Unknown option: '" ++ (splitOnChar tok '=').headD "" ++ "'"

/-- `ArchitectCommand.runSingleTarget` (architect-command.ts:284-337):
resolve the builder (fatal on `MODULE_NOT_FOUND`, rethrow otherwise),
parse the target options against its option definitions, and reject any
unconsumed leftovers unless the builder schema allows additional
properties, logging one fatal `Unknown option` message per leftover token
before returning 1. Otherwise the run is delegated to the external
builder runtime and its success decides the exit code (a reported error
value is logged non-fatally). The `options['--']` truthiness test of line
311 is the non-emptiness of the leftovers, per the external parser's
contract of only storing a non-empty leftover array; the analytics
reporting of lines 319-322 is out of scope and elided. -/
def runSingleTarget {α : Type}
    (getBuilderName : String → String → String)
    (resolveBuilder : String → Except JsError (BuilderDesc α))
    (parse : List String → α → ParsedArguments)
    (schedule : Target → ParsedArguments → ExecutionResult)
    (target : Target) (targetOptions : List String) : RunResult :=
  let builderConf := getBuilderName target.project target.target
  match resolveBuilder builderConf with
  | .error e =>
    if e.code = "MODULE_NOT_FOUND" then .finished 1 [missingBuilderMsg builderConf]
    else .thrown e
  | .ok builderDesc =>
    let overrides := parse targetOptions builderDesc.optionDefs
    if overrides.leftovers ≠ [] ∧ builderDesc.allowsAdditionalProperties = false then
      .finished 1 (overrides.leftovers.map tokenUnknownOptionMsg)
    else
      let res := schedule target overrides
      .finished (if res.success then 0 else 1) []

/-- A schema validation error as observed by the catch clause of
architect-command.ts:358-371: its `keyword` and its
`params.additionalProperty` (always present on errors with the
`additionalProperties` keyword, per the validator's contract). -/
structure SchemaValidatorError where
  keyword : String
  additionalProperty : String
deriving DecidableEq

/-- The rewritten message of architect-command.ts:365-366: a single dash
for a one-character key, a double dash otherwise. -/
def unknownOptionMsg (key : String) : String :=
  "Unknown option: '" ++ (if key.length = 1 then "-" else "--") ++ key ++ "'"

/-- The error filter of architect-command.ts:360-371: every validation
error whose keyword is `additionalProperties` and whose offending key is
among the original command option keys is rewritten into an
`Unknown option` fatal message and dropped; every other error is kept, in
order. Returns (fatal messages, remaining errors). -/
def translateValidationErrors : List SchemaValidatorError → List String →
    List String × List SchemaValidatorError
  | [], _ => ([], [])
  | e :: rest, keys =>
    let tail := translateValidationErrors rest keys
    if e.keyword = "additionalProperties" ∧ e.additionalProperty ∈ keys then
      (unknownOptionMsg e.additionalProperty :: tail.1, tail.2)
    else (tail.1, e :: tail.2)

/-- The whole catch clause of architect-command.ts:358-381 for a
`SchemaValidationException`: the filtered fatal messages, the remaining
errors (reported as-is when non-empty), and the exit code 1 that the
clause always returns. -/
def handleSchemaValidationFailure (errors : List SchemaValidatorError) (optionKeys : List String) :
    List String × List SchemaValidatorError × Nat :=
  let t := translateValidationErrors errors optionKeys
  (t.1, t.2, 1)

/-- C1 scenario workspace: candidates `app` and `lib`, both with a `test`
target. -/
def c1Ws : Workspace :=
  { projects := [("app", { targets := ["test"] }), ("lib", { targets := ["test"] })],
    defaultProject := "" }

/-- C1 scenario options: no explicit project, trailing tokens
`["lib", "--watch=false"]`. -/
def c1Opts : CmdOptions :=
  { project := "", configuration := "", targetOpt := "", help := false,
    leftovers := ["lib", "--watch=false"] }

/-- C5 witness workspace: candidates `A`, `B`, `C`, each with a `test`
target. -/
def c5Ws : Workspace :=
  { projects := [("A", { targets := ["test"] }), ("B", { targets := ["test"] }),
      ("C", { targets := ["test"] })],
    defaultProject := "" }

/-- C5 witness options: no explicit project, no target option. -/
def c5Opts : CmdOptions :=
  { project := "", configuration := "", targetOpt := "", help := false, leftovers := [] }

/-- C5 witness runner: the state records which projects ran, in order; the
run on `B` fails (exit code 1), the others succeed. -/
def c5Runner : Target → List String → List String → List String × Nat :=
  fun t _ s => (s ++ [t.project], if t.project = "B" then 1 else 0)

/-- C6 witness workspace. -/
def c6Ws : Workspace :=
  { projects := [("app", { targets := ["test"] }), ("lib", { targets := ["test"] })],
    defaultProject := "" }

/-- C6 witness collaborators: `lib`'s builder resolution fails with the
`MODULE_NOT_FOUND` code, `app`'s succeeds. -/
def c6Resolver : String → Except JsError (BuilderDesc (List String)) :=
  fun b => if b = "lib-builder" then .error ⟨"MODULE_NOT_FOUND", "no such module"⟩
           else .ok ⟨["watch"], false⟩

/-- C6 witness builder-name lookup. -/
def c6GetBuilder : String → String → String :=
  fun p _ => p ++ "-builder"

/-- C6 witness options: no explicit project, non-empty trailing tokens. -/
def c6Opts : CmdOptions :=
  { project := "", configuration := "", targetOpt := "", help := false, leftovers := ["lib"] }

/-- C10 witness workspace. -/
def c10Ws : Workspace :=
  { projects := [("app", { targets := ["test"] })], defaultProject := "" }

/-- C10 witness options: an explicit project, so the disambiguation guard
is off even though trailing tokens exist. -/
def c10Opts : CmdOptions :=
  { project := "app", configuration := "", targetOpt := "", help := false, leftovers := ["--flag"] }

/-- One of two deliberately different stand-ins for the disambiguation
block, for the C10 witness. -/
def c10DisambA : DisambFn (List String) := fun _ _ _ _ _ _ _ => DisambResult.fatal ["a"]

/-- The other stand-in for the disambiguation block, for the C10
witness. -/
def c10DisambB : DisambFn (List String) := fun _ _ _ _ _ _ _ => DisambResult.fatal ["b"]

-- ===================================================================
-- Theorems
-- ===================================================================

theorem makeTargetSpecifier_no_targetOpt (t : String) (o : CmdOptions) (h : o.targetOpt = "") :
    makeTargetSpecifier t o = { project := o.project, target := t, configuration := o.configuration } := by
  simp [makeTargetSpecifier, h]

/-- C3 (counterexample): for a command-options record whose `target` string
is non-empty and contains no colon, the specifier does NOT take project
from the discrete option and target from the fixed target name: the source
enters the split branch whenever the `target` option is truthy, so the
whole colon-free string becomes the project and the target segment is
empty. -/
theorem makeTargetSpecifier_colonless_cex :
    c3Opts.targetOpt.data.contains ':' = false ∧
      makeTargetSpecifier "test" c3Opts ≠ { project := "p", target := "test", configuration := "c" } ∧
      makeTargetSpecifier "test" c3Opts = { project := "build", target := "", configuration := "c" } := by
  refine ⟨by decide, by decide, by decide⟩

/-- C3 (amended): for every command-options record whose `target` option is
absent (empty), the normalized target specifier takes project and
configuration from the discrete options and target from the command's
fixed target name. -/
theorem makeTargetSpecifier_discrete (t : String) (o : CmdOptions) (h : o.targetOpt = "") :
    makeTargetSpecifier t o = { project := o.project, target := t, configuration := o.configuration } :=
  makeTargetSpecifier_no_targetOpt t o h

theorem makeTargetSpecifier_discrete_wit :
    c3WitOpts.targetOpt = "" ∧
      makeTargetSpecifier "serve" c3WitOpts = { project := "app", target := "serve", configuration := "prod" } :=
  ⟨rfl, makeTargetSpecifier_discrete "serve" c3WitOpts rfl⟩

theorem mem_jsSetFoldAux (x : String) :
    ∀ (l acc : List String),
      x ∈ l.foldl (fun a y => if y ∈ a then a else a ++ [y]) acc ↔ x ∈ acc ∨ x ∈ l := by
  intro l
  induction l with
  | nil => simp
  | cons y ys ih =>
    intro acc
    simp only [List.foldl_cons]
    rw [ih]
    by_cases hy : y ∈ acc
    · simp only [if_pos hy, List.mem_cons]
      constructor
      · rintro (h | h)
        · exact Or.inl h
        · exact Or.inr (Or.inr h)
      · rintro (h | rfl | h)
        · exact Or.inl h
        · exact Or.inl hy
        · exact Or.inr h
    · simp only [if_neg hy, List.mem_append, List.mem_singleton, List.mem_cons]
      tauto

theorem mem_jsSetOfList (x : String) (l : List String) : x ∈ jsSetOfList l ↔ x ∈ l := by
  unfold jsSetOfList
  rw [mem_jsSetFoldAux]
  simp

theorem mem_narrowStep (x : String) (pot lv : List String) :
    x ∈ narrowStep pot lv ↔ x ∈ lv ∧ x ∈ pot := by
  unfold narrowStep
  rw [mem_jsSetOfList]
  simp [List.mem_filter]

theorem mem_narrowCandidates (x : String) (lls : List (List String)) :
    ∀ init : List String, x ∈ narrowCandidates init lls ↔ x ∈ init ∧ ∀ lv ∈ lls, x ∈ lv := by
  induction lls with
  | nil => intro init; simp [narrowCandidates]
  | cons lv rest ih =>
    intro init
    have hshow : narrowCandidates init (lv :: rest) = narrowCandidates (narrowStep init lv) rest := rfl
    rw [hshow, ih, mem_narrowStep]
    simp only [List.mem_cons]
    constructor
    · rintro ⟨⟨hlv, hinit⟩, hall⟩
      refine ⟨hinit, ?_⟩
      rintro l (rfl | hl)
      · exact hlv
      · exact hall l hl
    · rintro ⟨hinit, hall⟩
      exact ⟨⟨hall lv (Or.inl rfl), hinit⟩, fun l hl => hall l (Or.inr hl)⟩

theorem mem_foldrInter (x : String) (lls : List (List String)) (s : Finset String) :
    x ∈ lls.foldr (fun lv acc => lv.toFinset ∩ acc) s ↔ (∀ lv ∈ lls, x ∈ lv) ∧ x ∈ s := by
  induction lls with
  | nil => simp
  | cons lv rest ih =>
    simp only [List.foldr_cons, Finset.mem_inter, List.mem_toFinset, ih, List.mem_cons]
    constructor
    · rintro ⟨hlv, hall, hs⟩
      refine ⟨?_, hs⟩
      rintro l (rfl | hl)
      · exact hlv
      · exact hall l hl
    · rintro ⟨hall, hs⟩
      exact ⟨hall lv (Or.inl rfl), fun l hl => hall l (Or.inr hl), hs⟩

/-- C4: given the same per-candidate leftover token lists, the narrowed
candidate set produced by folding `narrowStep` over them (exactly the
narrowing of architect-command.ts:150-152) is, as a set, independent of
the order in which the candidates are processed, and equals the initial
candidate set intersected with every per-candidate leftover-name set. -/
theorem narrowing_order_independent (init : List String) (l₁ l₂ : List (List String))
    (h : l₁.Perm l₂) :
    (narrowCandidates init l₁).toFinset = (narrowCandidates init l₂).toFinset ∧
      (narrowCandidates init l₁).toFinset =
        l₁.foldr (fun lv acc => lv.toFinset ∩ acc) init.toFinset := by
  constructor
  · ext x
    simp only [List.mem_toFinset, mem_narrowCandidates]
    constructor
    · rintro ⟨hi, hall⟩
      exact ⟨hi, fun lv hlv => hall lv (h.mem_iff.mpr hlv)⟩
    · rintro ⟨hi, hall⟩
      exact ⟨hi, fun lv hlv => hall lv (h.mem_iff.mp hlv)⟩
  · ext x
    simp only [List.mem_toFinset, mem_narrowCandidates, mem_foldrInter]
    tauto

theorem narrowing_order_independent_wit :
    (([["lib"], ["lib", "app"]] : List (List String)).Perm [["lib", "app"], ["lib"]]) ∧
      (narrowCandidates ["app", "lib"] [["lib"], ["lib", "app"]]).toFinset =
        (narrowCandidates ["app", "lib"] [["lib", "app"], ["lib"]]).toFinset ∧
      (narrowCandidates ["app", "lib"] [["lib"], ["lib", "app"]]).toFinset =
        ([["lib"], ["lib", "app"]] : List (List String)).foldr
          (fun lv acc => lv.toFinset ∩ acc) (["app", "lib"] : List String).toFinset := by
  have hp : (([["lib"], ["lib", "app"]] : List (List String))).Perm [["lib", "app"], ["lib"]] :=
    List.Perm.swap _ _ _
  have h := narrowing_order_independent ["app", "lib"] _ _ hp
  exact ⟨hp, h.1, h.2⟩

/-- C8: for a non-multi-target invocation whose project is still
unresolved, the source's fallback (sole candidate first, then default
project, then help, then fatal — architect-command.ts:195-211) selects
exactly what the claim's order (default project first, then sole
candidate, then help, then fatal) selects: when both a sole candidate
exists and the default project is among the candidates, the default IS
that sole candidate, so the two orders agree on every input. -/
theorem fallback_selection_matches_spec (missingTargetError defaultProjectName : String)
    (help : Bool) (cands : List String) :
    resolveFallbackProject missingTargetError defaultProjectName help cands =
      specFallbackProject missingTargetError defaultProjectName help cands := by
  unfold resolveFallbackProject specFallbackProject
  by_cases h1 : cands.length = 1
  · obtain ⟨a, rfl⟩ := List.length_eq_one.mp h1
    by_cases h2 : defaultProjectName ≠ "" ∧ defaultProjectName ∈ [a]
    · have ha : defaultProjectName = a := List.mem_singleton.mp h2.2
      subst ha
      simp [h2]
    · simp only [List.mem_singleton] at h2
      simp [h2]
  · rw [if_neg h1, if_neg h1]

theorem translateValidationErrors_spec (keys : List String) :
    ∀ errors : List SchemaValidatorError,
      translateValidationErrors errors keys =
        ((errors.filter (fun e =>
            decide (e.keyword = "additionalProperties" ∧ e.additionalProperty ∈ keys))).map
              (fun e => unknownOptionMsg e.additionalProperty),
          errors.filter (fun e =>
            !decide (e.keyword = "additionalProperties" ∧ e.additionalProperty ∈ keys))) := by
  intro errors
  induction errors with
  | nil => rfl
  | cons e rest ih =>
    by_cases h : e.keyword = "additionalProperties" ∧ e.additionalProperty ∈ keys
    · simp only [translateValidationErrors, ih]
      simp [h, List.filter_cons]
    · simp only [translateValidationErrors, ih]
      simp [h, List.filter_cons]
      rw [if_pos (not_and_or.mp h)]

/-- C9: the catch clause for schema-validation failures
(architect-command.ts:358-381) rewrites every validation error with the
`additionalProperties` keyword whose offending key is among the original
command option keys into an `Unknown option` fatal message (a single dash
for a one-character key, a double dash otherwise) and removes it from the
failure set; every remaining validation error is kept as-is, in order, and
the clause returns exit code 1. -/
theorem schema_validation_translated (errors : List SchemaValidatorError) (keys : List String) :
    handleSchemaValidationFailure errors keys =
      ((errors.filter (fun e =>
          decide (e.keyword = "additionalProperties" ∧ e.additionalProperty ∈ keys))).map
            (fun e => "Unknown option: '" ++ (if e.additionalProperty.length = 1 then "-" else "--")
              ++ e.additionalProperty ++ "'"),
        errors.filter (fun e =>
          !decide (e.keyword = "additionalProperties" ∧ e.additionalProperty ∈ keys)),
        1) := by
  unfold handleSchemaValidationFailure
  rw [translateValidationErrors_spec]
  simp [unknownOptionMsg]

theorem natOrEqZero (a b : Nat) : a ||| b = 0 ↔ a = 0 ∧ b = 0 := by
  constructor
  · intro h
    have key : ∀ i, a.testBit i = false ∧ b.testBit i = false := by
      intro i
      have h2 := congrArg (fun x => x.testBit i) h
      simp only [Nat.testBit_or, Nat.zero_testBit] at h2
      exact Bool.or_eq_false_iff.mp h2
    constructor
    · apply Nat.eq_of_testBit_eq
      intro i
      simp [(key i).1]
    · apply Nat.eq_of_testBit_eq
      intro i
      simp [(key i).2]
  · rintro ⟨rfl, rfl⟩
    rfl

theorem foldlOrEqZero : ∀ (l : List Nat) (r : Nat),
    l.foldl (fun a b => a ||| b) r = 0 ↔ r = 0 ∧ l.sum = 0 := by
  intro l
  induction l with
  | nil => simp
  | cons c cs ih =>
    intro r
    simp only [List.foldl_cons, List.sum_cons]
    rw [ih, natOrEqZero]
    omega

theorem runMultiTargetsSt_decomp {σ : Type} (runSingle : Target → List String → σ → σ × Nat)
    (targetSpec : Target) (extra : List String) :
    ∀ (projects : List String) (s : σ) (r : Nat),
      runMultiTargetsSt runSingle targetSpec extra projects (s, r) =
        (runStatesAux runSingle targetSpec extra projects s,
          (runCodesAux runSingle targetSpec extra projects s).foldl (fun a b => a ||| b) r) := by
  intro projects
  induction projects with
  | nil =>
    intro s r
    rfl
  | cons p ps ih =>
    intro s r
    simp only [runMultiTargetsSt, runStatesAux, runCodesAux, List.foldl_cons]
    exact ih _ _

/-- C5: for a multi-target invocation with no explicit project (and hence
a specifier with empty project), `runArchitectTarget` runs the fixed
target once per candidate project — the final state is the initial state
threaded sequentially, in candidate order, through the run of EVERY
candidate (`runStatesAux` is independent of the exit codes, so no run is
skipped after a failure) — and the overall exit code is the bitwise OR of
the individual codes, which is zero exactly when every individual code is
zero (stated via the sum of the code list). -/
theorem multi_target_sequential {σ : Type} (runSingle : Target → List String → σ → σ × Nat)
    (ws : Workspace) (targetName : String) (opts : CmdOptions) (s : σ)
    (htn : targetName ≠ "") (hp : opts.project = "") (ht : opts.targetOpt = "") :
    runArchitectTarget runSingle ws true targetName opts s =
      .ok (runStatesAux runSingle (makeTargetSpecifier targetName opts) opts.leftovers
            (projectsSupporting ws targetName) s,
          (runCodesAux runSingle (makeTargetSpecifier targetName opts) opts.leftovers
            (projectsSupporting ws targetName) s).foldl (fun a b => a ||| b) 0) ∧
      ((runCodesAux runSingle (makeTargetSpecifier targetName opts) opts.leftovers
          (projectsSupporting ws targetName) s).foldl (fun a b => a ||| b) 0 = 0 ↔
        (runCodesAux runSingle (makeTargetSpecifier targetName opts) opts.leftovers
          (projectsSupporting ws targetName) s).sum = 0) := by
  constructor
  · have hspec : (makeTargetSpecifier targetName opts).project = "" := by
      rw [makeTargetSpecifier_no_targetOpt targetName opts ht]
      exact hp
    unfold runArchitectTarget getProjectNamesByTarget
    rw [if_pos ⟨hspec, htn⟩, if_pos rfl]
    show Except.ok (runMultiTargetsSt runSingle (makeTargetSpecifier targetName opts)
      opts.leftovers (projectsSupporting ws targetName) (s, 0)) = _
    rw [runMultiTargetsSt_decomp]
  · rw [foldlOrEqZero]
    simp

theorem multi_target_sequential_wit :
    (("test" : String) ≠ "" ∧ c5Opts.project = "" ∧ c5Opts.targetOpt = "") ∧
    runArchitectTarget c5Runner c5Ws true "test" c5Opts ([] : List String) =
      .ok (["A", "B", "C"], 1) := by
  refine ⟨by decide, ?_⟩
  have h := (multi_target_sequential c5Runner c5Ws "test" c5Opts [] (by decide) rfl rfl).1
  rw [h]
  rfl

theorem candidateLoop_skips_ok {α : Type} (multiTarget : Bool) (targetName : String)
    (g : String → String → String) (r : String → Except JsError (BuilderDesc α))
    (parse : List String → α → ParsedArguments) (lf : List String) :
    ∀ (pre rest : List String) (st : LoopState α),
      (∀ q ∈ pre, exceptIsOk (r (g q targetName)) = true) →
      ∃ st2, candidateLoop multiTarget targetName g r parse lf (pre ++ rest) st =
        candidateLoop multiTarget targetName g r parse lf rest st2 := by
  intro pre
  induction pre with
  | nil =>
    intro rest st _
    exact ⟨st, rfl⟩
  | cons q qs ih =>
    intro rest st hok
    have hq := hok q (List.mem_cons_self q qs)
    cases hr : r (g q targetName) with
    | error e =>
      rw [hr] at hq
      simp [exceptIsOk] at hq
    | ok d =>
      have step : candidateLoop multiTarget targetName g r parse lf ((q :: qs) ++ rest) st =
          candidateLoop multiTarget targetName g r parse lf (qs ++ rest)
            { builderNames :=
                if multiTarget then jsSetAdd st.builderNames (g q targetName) else st.builderNames
              leftoverMap := st.leftoverMap ++ [(q, d.optionDefs, parse lf d.optionDefs)]
              potential := narrowStep st.potential (parse lf d.optionDefs).leftovers } := by
        simp only [List.cons_append, candidateLoop, hr]
        rfl
      rw [step]
      exact ih rest _ (fun x hx => hok x (List.mem_cons_of_mem q hx))

theorem disambiguateProject_missing_builder {α : Type} (multiTarget : Bool) (targetName : String)
    (g : String → String → String) (r : String → Except JsError (BuilderDesc α))
    (parse : List String → α → ParsedArguments) (lf : List String)
    (pre rest : List String) (p : String) (e : JsError)
    (hpre : ∀ q ∈ pre, exceptIsOk (r (g q targetName)) = true)
    (herr : r (g p targetName) = .error e) :
    disambiguateProject multiTarget (pre ++ p :: rest) targetName g r parse lf =
      if e.code = "MODULE_NOT_FOUND" then DisambResult.fatal [missingBuilderMsg (g p targetName)]
      else DisambResult.thrown e := by
  unfold disambiguateProject
  obtain ⟨st2, hst⟩ := candidateLoop_skips_ok multiTarget targetName g r parse lf pre (p :: rest)
    { builderNames := [], leftoverMap := [],
      potential := jsSetOfList (pre ++ p :: rest) } hpre
  rw [hst]
  simp only [candidateLoop, herr]
  by_cases hc : e.code = "MODULE_NOT_FOUND"
  · simp [hc]
  · simp [hc]

theorem initPrelude_ok_of (targetName missingTargetError : String) (ws : Workspace)
    (opts : CmdOptions) (htn : targetName ≠ "") (hproj : opts.project = "")
    (hne : projectsSupporting ws targetName ≠ []) :
    initPrelude targetName missingTargetError (some ws) opts =
      .ok (ws, projectsSupporting ws targetName) := by
  unfold initPrelude
  simp [htn, hproj, hne]

theorem architectCommandInitWith_ok {α : Type} (disamb : DisambFn α)
    (targetName missingTargetError : String) (multiTarget : Bool)
    (workspace : Option Workspace) (g : String → String → String)
    (r : String → Except JsError (BuilderDesc α)) (parse : List String → α → ParsedArguments)
    (opts : CmdOptions) (ws : Workspace) (tpn : List String)
    (hprel : initPrelude targetName missingTargetError workspace opts = .ok (ws, tpn)) :
    architectCommandInitWith disamb targetName missingTargetError multiTarget workspace
        g r parse opts =
      postDisamb multiTarget opts.help missingTargetError ws.defaultProject g r targetName tpn
        (if opts.project = "" ∧ opts.leftovers ≠ [] then
          disamb multiTarget tpn targetName g r parse opts.leftovers
        else DisambResult.done opts.project opts.leftovers) := by
  unfold architectCommandInitWith
  rw [hprel]

/-- C6: during disambiguation (no explicit project, trailing tokens
present), if a candidate's builder resolution fails — every earlier
candidate's having succeeded — then a `MODULE_NOT_FOUND` failure makes
the whole command abort with exit code 1 and the missing-builder
diagnostic (the candidate is not skipped), while any other failure is
rethrown unchanged to the caller. -/
theorem disambiguation_missing_builder_aborts {α : Type}
    (targetName missingTargetError : String) (multiTarget : Bool) (ws : Workspace)
    (g : String → String → String) (r : String → Except JsError (BuilderDesc α))
    (parse : List String → α → ParsedArguments) (opts : CmdOptions)
    (pre rest : List String) (p : String) (e : JsError)
    (htn : targetName ≠ "") (hproj : opts.project = "") (hlf : opts.leftovers ≠ [])
    (hsupp : projectsSupporting ws targetName = pre ++ p :: rest)
    (hpre : ∀ q ∈ pre, exceptIsOk (r (g q targetName)) = true)
    (herr : r (g p targetName) = .error e) :
    architectCommandInit targetName missingTargetError multiTarget (some ws) g r parse opts =
      if e.code = "MODULE_NOT_FOUND" then InitResult.exit1 [missingBuilderMsg (g p targetName)]
      else InitResult.thrown e := by
  have hne : projectsSupporting ws targetName ≠ [] := by
    rw [hsupp]
    simp
  have hguard : opts.project = "" ∧ opts.leftovers ≠ [] := ⟨hproj, hlf⟩
  unfold architectCommandInit
  rw [architectCommandInitWith_ok disambiguateProject targetName missingTargetError multiTarget
    (some ws) g r parse opts ws (projectsSupporting ws targetName)
    (initPrelude_ok_of targetName missingTargetError ws opts htn hproj hne)]
  rw [if_pos hguard]
  rw [hsupp]
  rw [disambiguateProject_missing_builder multiTarget targetName g r parse opts.leftovers
    pre rest p e hpre herr]
  by_cases hc : e.code = "MODULE_NOT_FOUND"
  · simp [hc, postDisamb]
  · simp [hc, postDisamb]

theorem disambiguation_missing_builder_aborts_wit :
    (projectsSupporting c6Ws "test" = ["app"] ++ "lib" :: [] ∧
      c6Resolver (c6GetBuilder "lib" "test") = .error ⟨"MODULE_NOT_FOUND", "no such module"⟩) ∧
    architectCommandInit "test" "" false (some c6Ws) c6GetBuilder c6Resolver specParse c6Opts =
      InitResult.exit1 [missingBuilderMsg (c6GetBuilder "lib" "test")] := by
  refine ⟨⟨by decide, rfl⟩, ?_⟩
  have h := disambiguation_missing_builder_aborts "test" "" false c6Ws c6GetBuilder c6Resolver
    specParse c6Opts ["app"] [] "lib" ⟨"MODULE_NOT_FOUND", "no such module"⟩
    (by decide) rfl (by decide) (by decide) (by decide) rfl
  rw [h]
  decide

theorem leftoversUnchangedB_toResult (pe : PreludeExit) (l : List String) :
    leftoversUnchangedB pe.toResult l = true := by
  cases pe <;> rfl

theorem leftoversUnchangedB_resolvePart {α : Type} (r : String → Except JsError (BuilderDesc α))
    (bc pn2 : String) (lf : List String) :
    leftoversUnchangedB
      (match r bc with
        | .error e =>
          if e.code = "MODULE_NOT_FOUND" then InitResult.exit1 [missingBuilderMsg bc]
          else InitResult.thrown e
        | .ok _ => InitResult.ok pn2 lf) lf = true := by
  cases r bc with
  | error e => by_cases hc : e.code = "MODULE_NOT_FOUND" <;> simp [leftoversUnchangedB, hc]
  | ok d => simp [leftoversUnchangedB]

theorem leftoversUnchangedB_finishInit {α : Type} (multiTarget help : Bool)
    (missingTargetError defaultProjectName : String) (g : String → String → String)
    (r : String → Except JsError (BuilderDesc α)) (targetName : String)
    (tpn : List String) (pn : String) (lf : List String) :
    leftoversUnchangedB
      (finishInit multiTarget help missingTargetError defaultProjectName g r targetName tpn pn lf)
      lf = true := by
  unfold finishInit
  split
  · rfl
  · rfl
  · exact leftoversUnchangedB_resolvePart r _ _ _

/-- C10: when a project was explicitly supplied or the trailing override
token list is empty, the guard of architect-command.ts:115 is false, so
the whole disambiguation phase (per-candidate builder resolution, leftover
parsing, candidate narrowing, token removal) is never entered — the result
of `initialize` is identical for EVERY function in the disambiguation
block's place — and whenever `initialize` completes successfully the
trailing override token list reaches execution exactly as supplied. -/
theorem init_disambiguation_not_entered {α : Type} (d₁ d₂ : DisambFn α)
    (targetName missingTargetError : String) (multiTarget : Bool)
    (workspace : Option Workspace) (g : String → String → String)
    (r : String → Except JsError (BuilderDesc α)) (parse : List String → α → ParsedArguments)
    (opts : CmdOptions) (h : opts.project ≠ "" ∨ opts.leftovers = []) :
    architectCommandInitWith d₁ targetName missingTargetError multiTarget workspace
        g r parse opts =
      architectCommandInitWith d₂ targetName missingTargetError multiTarget workspace
        g r parse opts ∧
    leftoversUnchangedB
      (architectCommandInitWith d₁ targetName missingTargetError multiTarget workspace
        g r parse opts)
      opts.leftovers = true := by
  have hguard : ¬(opts.project = "" ∧ opts.leftovers ≠ []) := by
    rcases h with h | h
    · exact fun hh => h hh.1
    · exact fun hh => hh.2 h
  cases hp : initPrelude targetName missingTargetError workspace opts with
  | error pe =>
    have e1 : architectCommandInitWith d₁ targetName missingTargetError multiTarget workspace
        g r parse opts = pe.toResult := by
      unfold architectCommandInitWith
      rw [hp]
    have e2 : architectCommandInitWith d₂ targetName missingTargetError multiTarget workspace
        g r parse opts = pe.toResult := by
      unfold architectCommandInitWith
      rw [hp]
    rw [e1, e2]
    exact ⟨rfl, leftoversUnchangedB_toResult pe _⟩
  | ok pair =>
    obtain ⟨ws, tpn⟩ := pair
    rw [architectCommandInitWith_ok d₁ targetName missingTargetError multiTarget workspace
        g r parse opts ws tpn hp,
      architectCommandInitWith_ok d₂ targetName missingTargetError multiTarget workspace
        g r parse opts ws tpn hp,
      if_neg hguard, if_neg hguard]
    exact ⟨rfl, leftoversUnchangedB_finishInit multiTarget opts.help missingTargetError
      ws.defaultProject g r targetName tpn opts.project opts.leftovers⟩

theorem init_disambiguation_not_entered_wit :
    (c10Opts.project ≠ "" ∨ c10Opts.leftovers = []) ∧
    architectCommandInitWith c10DisambA "test" "" false (some c10Ws) (fun _ _ => "b")
        (fun _ => .ok (⟨["watch"], false⟩ : BuilderDesc (List String))) specParse c10Opts =
      architectCommandInitWith c10DisambB "test" "" false (some c10Ws) (fun _ _ => "b")
        (fun _ => .ok (⟨["watch"], false⟩ : BuilderDesc (List String))) specParse c10Opts ∧
    leftoversUnchangedB
      (architectCommandInitWith c10DisambA "test" "" false (some c10Ws) (fun _ _ => "b")
        (fun _ => .ok (⟨["watch"], false⟩ : BuilderDesc (List String))) specParse c10Opts)
      c10Opts.leftovers = true := by
  refine ⟨by decide, ?_⟩
  exact init_disambiguation_not_entered c10DisambA c10DisambB "test" "" false (some c10Ws)
    (fun _ _ => "b") (fun _ => .ok (⟨["watch"], false⟩ : BuilderDesc (List String))) specParse
    c10Opts (by decide)

/-- C1: evaluation of the source at the spec's scenario — target `test`,
candidates `app` and `lib`, trailing tokens `["lib", "--watch=false"]`,
both builders declaring `--watch` as boolean. Disambiguation DOES resolve
the project to `lib`, but the final override list is NOT
`["--watch=false"]`: the occurrence scan of architect-command.ts:163-169
starts `indexOf(projectName, i + 1)` with `i = 0`, so the `"lib"` token at
index 0 is never found, no trial removal happens, and the override list
reaches execution unchanged as `["lib", "--watch=false"]`. -/
theorem scenario_lib_watch_eval :
    architectCommandInit "test" "" false (some c1Ws) (fun _ _ => "b")
        (fun _ => .ok (⟨["watch"], false⟩ : BuilderDesc (List String))) specParse c1Opts =
      .ok "lib" ["lib", "--watch=false"] ∧
    (["lib", "--watch=false"] : List String) ≠ ["--watch=false"] := by
  refine ⟨by decide, by decide⟩

/-- C2: evaluation of the token-removal stability check at a failing
input — resolved project `lib`, trailing tokens `["lib", "--watch=false"]`.
The claim requires every index whose token equals the project name to be
tried, left to right; removing the occurrence at index 0 leaves the parsed
structured options unchanged (third conjunct), so the claim would strip
it. The code's location scan (architect-command.ts:163-169) starts its
first `indexOf` at index 1, finds nothing (first conjunct), and the
override list is returned unmodified (second conjunct). The scan does see
occurrences at indices ≥ 1 (fourth conjunct). -/
theorem token_removal_skips_index_zero :
    collectLocations ["lib", "--watch=false"] "lib" = [] ∧
    removeProjectToken specParse ["watch"] [("watch", OptValue.bool false)]
        ["lib", "--watch=false"] "lib" = ["lib", "--watch=false"] ∧
    (specParse (["lib", "--watch=false"].eraseIdx 0) ["watch"]).options =
      (specParse ["lib", "--watch=false"] ["watch"]).options ∧
    collectLocations ["x", "lib", "--watch=false"] "lib" = [1] := by
  refine ⟨by decide, by decide, by decide, by decide⟩

/-- C7 (counterexample): a leftover token is reported with its own text,
not with a dash form derived from the name's length. The bare leftover
token `lib` (name `lib`, three characters) would have to be reported as
`--lib` under the claim's dash rule, but architect-command.ts:313 prints
the token's text before the first `=` verbatim: `Unknown option: 'lib'`. -/
theorem runSingleTarget_dash_form_cex :
    runSingleTarget (fun _ _ => "b")
        (fun _ => .ok (⟨["watch"], false⟩ : BuilderDesc (List String))) specParse
        (fun _ _ => ⟨true, none⟩) ⟨"lib", "test", ""⟩ ["lib"] =
      .finished 1 ["Unknown option: 'lib'"] ∧
    ("Unknown option: 'lib'" : String) ≠ "Unknown option: '--lib'" := by
  refine ⟨by decide, by decide⟩

/-- C7 (amended): when a single target run ends with unconsumed leftover
tokens and the builder schema does not allow additional properties, the
run fails with exit code 1 and every offending token is reported, in
order, as a fatal `Unknown option: '<token text before the first =>'`
message before returning (the token keeps whatever dashes it carries; no
dash form is derived); in particular the leftover `--foo=1` yields
`Unknown option: '--foo'`. -/
theorem runSingleTarget_rejects_leftovers {α : Type}
    (g : String → String → String) (r : String → Except JsError (BuilderDesc α))
    (parse : List String → α → ParsedArguments)
    (schedule : Target → ParsedArguments → ExecutionResult)
    (t : Target) (toks : List String) (d : BuilderDesc α)
    (hres : r (g t.project t.target) = .ok d)
    (hallow : d.allowsAdditionalProperties = false)
    (hlf : (parse toks d.optionDefs).leftovers ≠ []) :
    runSingleTarget g r parse schedule t toks =
      .finished 1 ((parse toks d.optionDefs).leftovers.map (fun tok =>
        "Unknown option: '" ++ (splitOnChar tok '=').headD "" ++ "'")) := by
  unfold runSingleTarget
  simp only [hres]
  simp [hlf, hallow, tokenUnknownOptionMsg]

theorem runSingleTarget_rejects_leftovers_wit :
    runSingleTarget (fun _ _ => "b")
        (fun _ => .ok (⟨[], false⟩ : BuilderDesc (List String))) specParse
        (fun _ _ => ⟨true, none⟩) ⟨"app", "test", ""⟩ ["--foo=1"] =
      .finished 1 ["Unknown option: '--foo'"] := by
  have h := runSingleTarget_rejects_leftovers (fun _ _ => "b")
    (fun _ => .ok (⟨[], false⟩ : BuilderDesc (List String))) specParse
    (fun _ _ => ⟨true, none⟩) ⟨"app", "test", ""⟩ ["--foo=1"] ⟨[], false⟩ rfl rfl (by decide)
  rw [h]
  decide
